import Mathlib

/-!
Shallow embedding of the EDA core of the CFPB NLP pipeline backend
(`backend/app/main.py`): the dataset loader `load_complaints_csv` and the
`/eda/plots` computation (categorical counts via `value_counts`, monthly
resampling, the narrative-length histogram via `np.histogram`, and the
word-count statistics).  Machine floats are modelled by exact rationals
(`ℚ`), with NaN represented as `Option.none`; pandas missing values (NaN
in object columns) are modelled by `Option` fields.  Where a floating
point computation is observable — the `np.linspace` histogram bin edges —
the exact rational values of the IEEE-754 doubles are embedded, and the
JSON response boundary (which rejects NaN) is modelled explicitly.
-/

namespace CfpbEda

/-- A row of the complaints table, with the columns `/eda/plots` reads.
Every field may be missing (pandas NaN), modelled with `Option`. -/
structure Record where
  product : Option String
  state : Option String
  submittedVia : Option String
  dateSent : Option String
  narrative : Option String
deriving Repr, DecidableEq

/-- A convenience constructor used by concrete test tables: a record with
only the fields of interest set. -/
def mkRec (product state submittedVia dateSent narrative : Option String) : Record :=
  ⟨product, state, submittedVia, dateSent, narrative⟩

/-! ### Categorical aggregation: `Series.value_counts()`

`value_counts` drops missing values, tallies each distinct value (distinct
values listed in order of first appearance), and sorts by descending count.
Pandas' sort keeps first-appearance order among equal counts, so the sort
is embedded as a stable insertion sort on the count key. -/

/-- Distinct values of a list in order of first appearance. -/
def firstSeen (l : List String) : List String :=
  l.foldl (fun acc a => if a ∈ acc then acc else acc ++ [a]) []

/-- Order used by `sort_values(ascending=False)` on the count component:
an entry may precede another when its count is at least as large. -/
def countGE (a b : String × Nat) : Prop := b.2 ≤ a.2

instance : DecidableRel countGE := fun a b => inferInstanceAs (Decidable (b.2 ≤ a.2))

instance : IsTotal (String × Nat) countGE := ⟨fun a b => le_total b.2 a.2⟩

instance : IsTrans (String × Nat) countGE := ⟨fun _ _ _ h1 h2 => le_trans h2 h1⟩

/-- Stable sort by descending count (`sort_values(ascending=False)`):
insertion sort places a new entry after the entries of equal count that
appeared before it, keeping first-appearance order among ties. -/
def sortByCountDesc (l : List (String × Nat)) : List (String × Nat) :=
  List.insertionSort countGE l

/-- Embedding of `Series.value_counts().to_dict()`: counts of the
non-missing values, sorted by descending count, ties in first-appearance
order. -/
def valueCounts (col : List (Option String)) : List (String × Nat) :=
  let vs := col.filterMap id
  sortByCountDesc ((firstSeen vs).map (fun v => (v, vs.count v)))

/-- Embedding of `df["State"].value_counts().head(10)`: top-10
truncation. -/
def topStatesOf (col : List (Option String)) : List (String × Nat) :=
  (valueCounts col).take 10

/-! ### Dataset loader: `load_complaints_csv`

The directory listing is passed in as the ordered list of (file name,
parsed rows); `glob("*.csv")` keeps the names ending in `.csv` in listing
order, and the loader reads the first match with `nrows=100_000`. -/

/-- Whether a file name matches the `*.csv` glob pattern, i.e. ends in
`.csv`. -/
def matchesCsvGlob (name : String) : Bool := (".csv").data.isSuffixOf name.data

/-- Embedding of `load_complaints_csv`: pick the first `*.csv` file of the
directory listing and read at most 100 000 rows in order; with no match,
fail with the `FileNotFoundError` message built from the resolved
directory path. -/
def load_complaints_csv (resolvedDir : String) (listing : List (String × List Record)) :
    Except String (List Record) :=
  let csvFiles := listing.filter (fun f => matchesCsvGlob f.1)
  match csvFiles with
  | [] => .error ("No CSV files found in " ++ resolvedDir ++ ". " ++
      "Run /scrape first" ++ " to download complaints.csv.")
  | f :: _ => .ok (f.2.take 100000)

/-! ### Temporal aggregation: `pd.to_datetime` + `resample("ME").count()`

Dates are modelled in ISO `YYYY-MM-DD` form; `pd.to_datetime` raises on
the first non-missing value that does not parse as a calendar date, and
the error message names the raw value.  Missing dates become `NaT` and
drop out of the resampling.  `resample("ME")` produces one bucket for
EVERY calendar month between the earliest and latest parsed date
(months without records get count 0), and `.count()` on the `Product`
column counts only rows whose `Product` is non-missing. -/

/-- A calendar date. -/
structure Date where
  year : Nat
  month : Nat
  day : Nat
deriving Repr, DecidableEq

/-- Value of a decimal digit character. -/
def digitVal (c : Char) : Option Nat :=
  if c.isDigit then some (c.toNat - 48) else none

/-- Parse an ISO `YYYY-MM-DD` string into a calendar date; anything else
(including out-of-range month or day fields) fails. -/
def parseDate (s : String) : Option Date :=
  match s.data with
  | [y1, y2, y3, y4, sep1, m1, m2, sep2, d1, d2] =>
    if sep1 = '-' && sep2 = '-' then do
      let a ← digitVal y1
      let b ← digitVal y2
      let c ← digitVal y3
      let d ← digitVal y4
      let e ← digitVal m1
      let f ← digitVal m2
      let g ← digitVal d1
      let h ← digitVal d2
      let month := 10 * e + f
      let day := 10 * g + h
      if 1 ≤ month ∧ month ≤ 12 ∧ 1 ≤ day ∧ day ≤ 31 then
        some ⟨1000 * a + 100 * b + 10 * c + d, month, day⟩
      else none
    else none
  | _ => none

/-- Linear month index of a date (months since year 0). -/
def monthIdx (d : Date) : Nat := 12 * d.year + (d.month - 1)

/-- Zero-pad a number to two digits. -/
def pad2 (n : Nat) : String := (if n < 10 then "0" else "") ++ toString n

/-- Zero-pad a number to four digits. -/
def pad4 (n : Nat) : String :=
  (if n < 10 then "000" else if n < 100 then "00" else if n < 1000 then "0" else "")
    ++ toString n

/-- Label of a month index, as `strftime("%Y-%m")` renders it. -/
def fmtMonth (mi : Nat) : String := pad4 (mi / 12) ++ "-" ++ pad2 (mi % 12 + 1)

/-- First non-missing date value of the column that fails to parse, if
any: the value `pd.to_datetime` raises on. -/
def firstBadDate (rows : List Record) : Option String :=
  rows.findSome? (fun r =>
    match r.dateSent with
    | none => none
    | some s => if (parseDate s).isSome then none else some s)

/-- Month index and `Product` value of every row whose date is present
and parses: the series that gets resampled. -/
def monthEntries (rows : List Record) : List (Nat × Option String) :=
  rows.filterMap (fun r =>
    (r.dateSent.bind parseDate).map (fun d => (monthIdx d, r.product)))

/-- Count of a month-end bucket: the number of rows whose date parses
into the given month and whose `Product` is non-missing (what `.count()`
on the `Product` series yields). -/
def monthCount (rows : List Record) (mi : Nat) : Nat :=
  ((monthEntries rows).filter (fun e => decide (e.1 = mi) && e.2.isSome)).length

/-- Embedding of the monthly-complaints computation: parse the
`Date sent to company` column (raising on the first bad value), index by
date, resample to month-end buckets and count non-missing `Product`
values per bucket, labelling buckets `YYYY-MM`. -/
def monthly_complaints (rows : List Record) : Except String (List (String × Nat)) :=
  match firstBadDate rows with
  | some bad => .error ("Unknown datetime string format, unable to parse: " ++ bad)
  | none =>
    match (monthEntries rows).map Prod.fst with
    | [] => .ok []
    | m :: ms =>
      let lo := ms.foldl Nat.min m
      let hi := ms.foldl Nat.max m
      .ok ((List.range (hi + 1 - lo)).map (fun k =>
        (fmtMonth (lo + k), monthCount rows (lo + k))))

/-! ### Narrative-length histogram: `np.histogram(·, bins=30, range=(0, 4000))`

With a fixed range, numpy builds 31 edges with `np.linspace(0, 4000, 31)`
in IEEE-754 double arithmetic and counts each value into the half-open
bucket `[edge i, edge (i+1))`, the last bucket being closed on the right;
values outside `[0, 4000]` fall in no bucket.  The emitted
`bin_start`/`bin_end` are `int(edge)`, the float edges truncated to
integers.  The float edges are NOT the exact rationals `i·4000/30`:
`linspace` computes edge `i` as the double rounding of
`i · double(4000/30)` (and pins the last edge to the stop value 4000),
and two of them land above their exact values: edge 15 =
2000.0000000000002 and edge 27 = 3600.0000000000005, while every other
edge compares with every integer exactly as the exact rational does.
Hence the integer lengths 2000 and 3600 fall one bucket LOWER than exact
equal-width binning would place them. -/

/-- Exact rational value of the IEEE-754 double bin edge `i` produced by
`np.linspace(0, 4000, 31)`: the double rounding of `i · double(4000/30)`
(with `double(4000/30) = 4691249611844267 / 2^45`), the last edge being
the exact stop value 4000; all written over the common denominator
`2^45 = 35184372088832`. -/
def binEdgesF (i : Nat) : ℚ :=
  match i with
  | 0 => 0
  | 1 => 4691249611844267 / 35184372088832
  | 2 => 9382499223688534 / 35184372088832
  | 3 => 14073748835532800 / 35184372088832
  | 4 => 18764998447377068 / 35184372088832
  | 5 => 23456248059221336 / 35184372088832
  | 6 => 28147497671065600 / 35184372088832
  | 7 => 32838747282909868 / 35184372088832
  | 8 => 37529996894754136 / 35184372088832
  | 9 => 42221246506598400 / 35184372088832
  | 10 => 46912496118442672 / 35184372088832
  | 11 => 51603745730286936 / 35184372088832
  | 12 => 56294995342131200 / 35184372088832
  | 13 => 60986244953975472 / 35184372088832
  | 14 => 65677494565819736 / 35184372088832
  | 15 => 70368744177664008 / 35184372088832
  | 16 => 75059993789508272 / 35184372088832
  | 17 => 79751243401352544 / 35184372088832
  | 18 => 84442493013196800 / 35184372088832
  | 19 => 89133742625041072 / 35184372088832
  | 20 => 93824992236885344 / 35184372088832
  | 21 => 98516241848729600 / 35184372088832
  | 22 => 103207491460573872 / 35184372088832
  | 23 => 107898741072418144 / 35184372088832
  | 24 => 112589990684262400 / 35184372088832
  | 25 => 117281240296106672 / 35184372088832
  | 26 => 121972489907950944 / 35184372088832
  | 27 => 126663739519795216 / 35184372088832
  | 28 => 131354989131639472 / 35184372088832
  | 29 => 136046238743483744 / 35184372088832
  | _ => 4000

/-- Integer shadow of float edge `i`: the unique natural `s` with
`s − 1 < edge i ≤ s`, so that for every integer `L` the float
comparisons satisfy `edge i ≤ L ↔ s ≤ L` and `L < edge i ↔ L < s`. -/
def edgeIntBound (i : Nat) : Nat :=
  match i with
  | 0 => 0
  | 1 => 134
  | 2 => 267
  | 3 => 400
  | 4 => 534
  | 5 => 667
  | 6 => 800
  | 7 => 934
  | 8 => 1067
  | 9 => 1200
  | 10 => 1334
  | 11 => 1467
  | 12 => 1600
  | 13 => 1734
  | 14 => 1867
  | 15 => 2001
  | 16 => 2134
  | 17 => 2267
  | 18 => 2400
  | 19 => 2534
  | 20 => 2667
  | 21 => 2800
  | 22 => 2934
  | 23 => 3067
  | 24 => 3200
  | 25 => 3334
  | 26 => 3467
  | 27 => 3601
  | 28 => 3734
  | 29 => 3867
  | _ => 4000

/-- Bucket index an integer narrative character length falls into, if
any, under numpy's binning against the float edges `binEdgesF` (uniform
fast path with index correction against the edge array): half-open
buckets, last closed.  On integers this agrees with exact equal-width
binning `(30·len)/4000` everywhere except at lengths 2000 and 3600,
which lie strictly below float edges 15 and 27 and therefore land in
buckets 14 and 26; the theorem `histBin_float_edges` proves this
definition equal to binning against `binEdgesF`. -/
def histBin (len : Nat) : Option Nat :=
  if 4000 < len then none
  else if len = 4000 then some 29
  else if len = 2000 then some 14
  else if len = 3600 then some 26
  else some ((30 * len) / 4000)

/-- Embedding of the narrative-length histogram: lengths of the
non-missing narratives, binned into 30 buckets over `[0, 4000]` with
truncated integer edges. -/
def narrative_hist (rows : List Record) : List (Nat × Nat × Nat) :=
  let lens := (rows.filterMap (fun r => r.narrative)).map String.length
  (List.range 30).map (fun i =>
    ((i * 4000) / 30, ((i + 1) * 4000) / 30,
     (lens.filter (fun L => histBin L = some i)).length))

/-! ### Word-count statistics

Word counts come from Python's `len(str(x).split())`: the number of
maximal runs of non-whitespace characters.  The statistics follow pandas:
`mean` is the arithmetic mean, `std` the sample standard deviation
(denominator `n − 1`, NaN when `n < 2`), `quantile` uses linear
interpolation between closest ranks.  Floats are modelled as exact
rationals; NaN is `none`; the standard deviation is represented by its
square `sampleVar` (the sample variance), since the square root leaves
the rationals. -/

/-- Whitespace per Python's `str.split()`. -/
def isSpaceChar (c : Char) : Bool :=
  c = ' ' || c = '\t' || c = '\n' || c = '\r' || c = '\x0b' || c = '\x0c'

/-- Count the maximal runs of non-whitespace characters; the flag records
whether the scan is currently inside such a run. -/
def countTokens : List Char → Bool → Nat
  | [], _ => 0
  | c :: rest, inTok =>
    if isSpaceChar c then countTokens rest false
    else (if inTok then 0 else 1) + countTokens rest true

/-- Embedding of `len(str(x).split())`: the number of whitespace-delimited
tokens of a narrative. -/
def wordCount (s : String) : Nat := countTokens s.data false

/-- Stable ascending insertion for sorting word counts. -/
def insertAsc (a : Nat) : List Nat → List Nat
  | [] => [a]
  | b :: l => if a ≤ b then a :: b :: l else b :: insertAsc a l

/-- Ascending sort of a list of word counts. -/
def sortAsc (l : List Nat) : List Nat := l.foldr insertAsc []

/-- Embedding of `Series.quantile(q)` with the default linear
interpolation between closest ranks, for `q = qnum/qden`: on the sorted
values `v` with `n = v.length`, the rank `h = q·(n−1)` is split into its
integer part `lo = ⌊h⌋` and fractional part `g = h − lo` (computed
exactly as quotient and remainder of `qnum·(n−1)` by `qden`), and the
result is `v lo + g·(v (lo+1) − v lo)`; the empty series yields NaN. -/
def quantileLinear (l : List Nat) (qnum qden : Nat) : Option ℚ :=
  match sortAsc l with
  | [] => none
  | v =>
    let n := v.length
    let t := qnum * (n - 1)
    let lo : Nat := t / qden
    let g : ℚ := ((t % qden : Nat) : ℚ) / (qden : ℚ)
    let vlo : ℚ := (v.getD lo 0 : Nat)
    let vhi : ℚ := (v.getD (lo + 1) (v.getD lo 0) : Nat)
    some (vlo + g * (vhi - vlo))

/-- Arithmetic mean of a list of word counts, NaN when empty. -/
def meanQ (l : List Nat) : Option ℚ :=
  match l with
  | [] => none
  | _ => some (((l.map (fun x => (x : ℚ))).sum) / (l.length : ℚ))

/-- Sample variance (denominator `n − 1`), NaN when fewer than two
values; the emitted standard deviation is its square root. -/
def sampleVarQ (l : List Nat) : Option ℚ :=
  if 2 ≤ l.length then
    let m : ℚ := ((l.map (fun x => (x : ℚ))).sum) / (l.length : ℚ)
    some (((l.map (fun x => ((x : ℚ) - m) ^ 2)).sum) / ((l.length : ℚ) - 1))
  else none

/-- The word-count statistics record emitted under `word_count_stats`. -/
structure WordCountStats where
  count : Nat
  mean : Option ℚ
  sampleVar : Option ℚ
  min : Option Nat
  max : Option Nat
  p50 : Option ℚ
  p75 : Option ℚ
  p90 : Option ℚ
  p95 : Option ℚ
  p99 : Option ℚ
deriving Repr, DecidableEq

/-- Embedding of the word-count statistics: drop rows with a missing
narrative, take each remaining narrative's whitespace-token count, and
compute count, mean, sample variance (standing for the sample standard
deviation, its square root), min, max and the five percentiles. -/
def word_count_stats (rows : List Record) : WordCountStats :=
  let wcs := (rows.filterMap (fun r => r.narrative)).map wordCount
  { count := wcs.length
    mean := meanQ wcs
    sampleVar := sampleVarQ wcs
    min := wcs.min?
    max := wcs.max?
    p50 := quantileLinear wcs 1 2
    p75 := quantileLinear wcs 3 4
    p90 := quantileLinear wcs 9 10
    p95 := quantileLinear wcs 19 20
    p99 := quantileLinear wcs 99 100 }

/-! ### The composed `/eda/plots` response -/

/-- The `/eda/plots` response body. -/
structure EdaPlots where
  product_counts : List (String × Nat)
  top_states : List (String × Nat)
  submitted_via_counts : List (String × Nat)
  monthly_complaints : List (String × Nat)
  narrative_hist : List (Nat × Nat × Nat)
  word_count_stats : WordCountStats
deriving Repr, DecidableEq

/-- Embedding of the `/eda/plots` endpoint: load the table (first `*.csv`
of the input directory, capped at 100 000 rows) and derive the five
aggregates; a loader or date-parse failure aborts the whole response. -/
def eda_plots (resolvedDir : String) (listing : List (String × List Record)) :
    Except String EdaPlots := do
  let df ← load_complaints_csv resolvedDir listing
  let monthly ← monthly_complaints df
  pure
    { product_counts := valueCounts (df.map (fun r => r.product))
      top_states := topStatesOf (df.map (fun r => r.state))
      submitted_via_counts := valueCounts (df.map (fun r => r.submittedVia))
      monthly_complaints := monthly
      narrative_hist := narrative_hist df
      word_count_stats := word_count_stats df }

/-- Whether any word-count statistic is NaN (modelled `none`): pandas
emits NaN for the mean, min, max and percentiles of an empty series and
for the sample standard deviation of a series with fewer than two
values. -/
def statsHasNaN (s : WordCountStats) : Bool :=
  s.mean.isNone || s.sampleVar.isNone || s.min.isNone || s.max.isNone ||
    s.p50.isNone || s.p75.isNone || s.p90.isNone || s.p95.isNone || s.p99.isNone

/-- Embedding of the full HTTP request: FastAPI serializes the response
model through Starlette's `JSONResponse`, whose `render` calls
`json.dumps(..., allow_nan=False)`; a NaN among the word-count
statistics therefore raises `ValueError: Out of range float values are
not JSON compliant` and the request fails with a server error instead
of returning the response. -/
def render_eda_plots (resolvedDir : String) (listing : List (String × List Record)) :
    Except String EdaPlots :=
  match eda_plots resolvedDir listing with
  | .error e => .error e
  | .ok resp =>
    if statsHasNaN resp.word_count_stats then
      .error "Out of range float values are not JSON compliant"
    else .ok resp

/-! ### Supporting lemmas -/

theorem foldl_firstSeen_mem (l acc : List String) (v : String) :
    v ∈ l.foldl (fun acc a => if a ∈ acc then acc else acc ++ [a]) acc ↔
      v ∈ acc ∨ v ∈ l := by
  induction l generalizing acc with
  | nil => simp
  | cons a l ih =>
    simp only [List.foldl_cons]
    by_cases h : a ∈ acc
    · rw [if_pos h, ih]
      simp only [List.mem_cons]
      constructor
      · rintro (h1 | h2)
        · exact Or.inl h1
        · exact Or.inr (Or.inr h2)
      · rintro (h1 | h2 | h3)
        · exact Or.inl h1
        · exact Or.inl (h2 ▸ h)
        · exact Or.inr h3
    · rw [if_neg h, ih]
      simp only [List.mem_append, List.mem_singleton, List.mem_cons]
      tauto

theorem mem_firstSeen (l : List String) (v : String) : v ∈ firstSeen l ↔ v ∈ l := by
  simpa using foldl_firstSeen_mem l [] v

theorem foldl_firstSeen_nodup (l : List String) (acc : List String) (h : acc.Nodup) :
    (l.foldl (fun acc a => if a ∈ acc then acc else acc ++ [a]) acc).Nodup := by
  induction l generalizing acc with
  | nil => simpa
  | cons a l ih =>
    simp only [List.foldl_cons]
    by_cases ha : a ∈ acc
    · rw [if_pos ha]; exact ih _ h
    · rw [if_neg ha]
      refine ih _ ?_
      simp [List.nodup_append, h, ha]

theorem firstSeen_nodup (l : List String) : (firstSeen l).Nodup :=
  foldl_firstSeen_nodup l [] (by simp)

theorem valueCounts_perm (col : List (Option String)) :
    (valueCounts col).Perm
      ((firstSeen (col.filterMap id)).map
        fun v => (v, (col.filterMap id).count v)) := by
  simpa [valueCounts, sortByCountDesc] using
    List.perm_insertionSort countGE
      ((firstSeen (col.filterMap id)).map
        fun v => (v, (col.filterMap id).count v))

theorem valueCounts_length (col : List (Option String)) :
    (valueCounts col).length = (firstSeen (col.filterMap id)).length := by
  simpa using (valueCounts_perm col).length_eq

theorem valueCounts_sorted (col : List (Option String)) :
    List.Sorted countGE (valueCounts col) :=
  List.sorted_insertionSort countGE _

theorem foldl_min_le_self (ms : List Nat) (m : Nat) : ms.foldl Nat.min m ≤ m := by
  induction ms generalizing m with
  | nil => exact le_refl m
  | cons a l ih =>
    simp only [List.foldl_cons]
    exact le_trans (ih (Nat.min m a)) (Nat.min_le_left m a)

theorem foldl_min_le (ms : List Nat) (m : Nat) : ∀ b ∈ ms, ms.foldl Nat.min m ≤ b := by
  induction ms generalizing m with
  | nil => intro b hb; cases hb
  | cons a l ih =>
    intro b hb
    rcases List.mem_cons.mp hb with h | h
    · subst h
      exact le_trans (foldl_min_le_self l (Nat.min m b)) (Nat.min_le_right m b)
    · exact ih (Nat.min m a) b h

theorem foldl_min_mem (ms : List Nat) (m : Nat) : ms.foldl Nat.min m ∈ m :: ms := by
  induction ms generalizing m with
  | nil => simp
  | cons a l ih =>
    simp only [List.foldl_cons]
    rcases List.mem_cons.mp (ih (Nat.min m a)) with h | h
    · rcases le_total m a with hle | hle
      · have h' : Nat.min m a = m := Nat.min_eq_left hle
        rw [h, h']; simp
      · have h' : Nat.min m a = a := Nat.min_eq_right hle
        rw [h, h']; simp
    · simp [h]

theorem le_foldl_max_self (ms : List Nat) (m : Nat) : m ≤ ms.foldl Nat.max m := by
  induction ms generalizing m with
  | nil => exact le_refl m
  | cons a l ih =>
    simp only [List.foldl_cons]
    exact le_trans (Nat.le_max_left m a) (ih (Nat.max m a))

theorem le_foldl_max (ms : List Nat) (m : Nat) : ∀ b ∈ ms, b ≤ ms.foldl Nat.max m := by
  induction ms generalizing m with
  | nil => intro b hb; cases hb
  | cons a l ih =>
    intro b hb
    rcases List.mem_cons.mp hb with h | h
    · subst h
      exact le_trans (Nat.le_max_right m b) (le_foldl_max_self l (Nat.max m b))
    · exact ih (Nat.max m a) b h

theorem foldl_max_mem (ms : List Nat) (m : Nat) : ms.foldl Nat.max m ∈ m :: ms := by
  induction ms generalizing m with
  | nil => simp
  | cons a l ih =>
    simp only [List.foldl_cons]
    rcases List.mem_cons.mp (ih (Nat.max m a)) with h | h
    · rcases le_total m a with hle | hle
      · have h' : Nat.max m a = a := Nat.max_eq_right hle
        rw [h, h']; simp
      · have h' : Nat.max m a = m := Nat.max_eq_left hle
        rw [h, h']; simp
    · simp [h]

theorem firstBadDate_of_mem (rows : List Record) (r : Record) (s : String)
    (hr : r ∈ rows) (hs : r.dateSent = some s) (hbad : parseDate s = none) :
    ∃ bad, firstBadDate rows = some bad := by
  induction rows with
  | nil => cases hr
  | cons a l ih =>
    unfold firstBadDate
    rw [List.findSome?_cons]
    rcases ha : (match a.dateSent with
      | none => none
      | some s => if (parseDate s).isSome then none else some s : Option String) with _ | bad
    · rcases List.mem_cons.mp hr with h | h
      · subst h
        rw [hs] at ha
        simp [Option.isSome_iff_exists, hbad] at ha
      · simpa [firstBadDate] using ih h
    · exact ⟨bad, rfl⟩

theorem firstBadDate_spec (rows : List Record) (bad : String)
    (h : firstBadDate rows = some bad) :
    parseDate bad = none ∧ ∃ r ∈ rows, r.dateSent = some bad := by
  induction rows with
  | nil => simp [firstBadDate] at h
  | cons a l ih =>
    unfold firstBadDate at h
    rw [List.findSome?_cons] at h
    rcases ha : (match a.dateSent with
      | none => none
      | some s => if (parseDate s).isSome then none else some s : Option String) with _ | b
    · rw [ha] at h
      obtain ⟨hb, r, hrl, hrs⟩ := ih h
      exact ⟨hb, r, List.mem_cons_of_mem a hrl, hrs⟩
    · rw [ha] at h
      cases h
      rcases hds : a.dateSent with _ | s
      · rw [hds] at ha; cases ha
      · rw [hds] at ha
        by_cases hp : (parseDate s).isSome
        · simp [hp] at ha
        · simp [hp] at ha
          subst ha
          exact ⟨Option.not_isSome_iff_eq_none.mp hp, a, List.mem_cons_self a l, hds⟩

theorem histBin_eq_some_iff (L i : Nat) (hi : i < 30) :
    histBin L = some i ↔
      ((L = 2000 ∧ i = 14) ∨ (L = 3600 ∧ i = 26) ∨
        (L ≠ 2000 ∧ L ≠ 3600 ∧ i * 4000 ≤ 30 * L ∧
          (30 * L < (i + 1) * 4000 ∨ (i = 29 ∧ L = 4000)))) := by
  unfold histBin
  split_ifs with h1 h2 h3 h4 <;> simp <;> omega

theorem int_cmp_of_edge_bounds (E : ℚ) (s : Nat)
    (h1 : (s : ℚ) - 1 < E) (h2 : E ≤ (s : ℚ)) (L : Nat) :
    (E ≤ (L : ℚ) ↔ s ≤ L) ∧ ((L : ℚ) < E ↔ L < s) := by
  constructor
  · constructor
    · intro h
      by_contra hc
      push_neg at hc
      have hq : (L : ℚ) + 1 ≤ (s : ℚ) := by exact_mod_cast hc
      linarith
    · intro h
      have hq : (s : ℚ) ≤ (L : ℚ) := by exact_mod_cast h
      linarith
  · constructor
    · intro h
      by_contra hc
      push_neg at hc
      have hq : (s : ℚ) ≤ (L : ℚ) := by exact_mod_cast hc
      linarith
    · intro h
      have hq : (L : ℚ) + 1 ≤ (s : ℚ) := by exact_mod_cast h
      linarith

theorem binEdgesF_bounds (i : Nat) (hi : i ≤ 30) :
    (edgeIntBound i : ℚ) - 1 < binEdgesF i ∧ binEdgesF i ≤ (edgeIntBound i : ℚ) := by
  interval_cases i <;> constructor <;> norm_num [binEdgesF, edgeIntBound]

theorem histBin_float_edges (L i : Nat) (hL : L ≤ 4000) (hi : i < 30) :
    histBin L = some i ↔
      (binEdgesF i ≤ (L : ℚ) ∧
        ((L : ℚ) < binEdgesF (i + 1) ∨ (i = 29 ∧ L = 4000))) := by
  have hb := binEdgesF_bounds i (by omega)
  have hb1 := binEdgesF_bounds (i + 1) (by omega)
  rw [(int_cmp_of_edge_bounds _ _ hb.1 hb.2 L).1,
    (int_cmp_of_edge_bounds _ _ hb1.1 hb1.2 L).2]
  interval_cases i <;>
    (simp only [edgeIntBound]; unfold histBin; split_ifs <;> (try simp) <;> omega)

theorem string_data_infix_middle (a b c : String) : b.data <:+: (a ++ b ++ c).data :=
  ⟨a.data, c.data, by simp [String.data_append]⟩

/-! ### Concrete tables used as test inputs -/

/-- Two records whose dates fall in January and March 2024, with February
absent from the data. -/
def janMarTable : List Record :=
  [mkRec (some "X") none none (some "2024-01-05") none,
   mkRec (some "X") none none (some "2024-03-01") none]

/-! ### Claim theorems -/

/-- C1, counterexample: on a table with records only in January and March
2024, the monthly aggregation emits a bucket labelled `2024-02` with
count 0, although no record's date falls in that month — the code
zero-fills absent months (`resample` yields every month between the
earliest and latest date), contradicting the claim that months absent
from the data yield no bucket. -/
theorem monthly_buckets_no_zero_fill_counterexample :
    monthly_complaints janMarTable =
      .ok [("2024-01", 1), ("2024-02", 0), ("2024-03", 1)] ∧
    fmtMonth (12 * 2024 + 1) = "2024-02" ∧
    12 * 2024 + 1 ∉ (monthEntries janMarTable).map Prod.fst := by
  refine ⟨rfl, rfl, by decide⟩

/-- C1, amended: for every table whose date column parses, the monthly
aggregation emits one bucket per calendar month from the earliest to the
latest parsed date (consecutive months, zero-count buckets included for
months absent from the data), labelled `YYYY-MM` in ascending month
order, and each bucket's count equals the number of records whose date
falls in that month and whose `Product` value is non-missing. -/
theorem monthly_buckets_consecutive_span (rows : List Record) (m : Nat) (ms : List Nat)
    (hok : firstBadDate rows = none)
    (hm : (monthEntries rows).map Prod.fst = m :: ms) :
    ∃ buckets, monthly_complaints rows = .ok buckets ∧
      buckets.length = ms.foldl Nat.max m + 1 - ms.foldl Nat.min m ∧
      (∀ k, (hk : k < buckets.length) →
        buckets.get ⟨k, hk⟩ =
          (fmtMonth (ms.foldl Nat.min m + k), monthCount rows (ms.foldl Nat.min m + k))) ∧
      (∀ mi ∈ (monthEntries rows).map Prod.fst,
        ms.foldl Nat.min m ≤ mi ∧ mi ≤ ms.foldl Nat.max m) ∧
      ms.foldl Nat.min m ∈ (monthEntries rows).map Prod.fst ∧
      ms.foldl Nat.max m ∈ (monthEntries rows).map Prod.fst := by
  have heq : monthly_complaints rows =
      .ok ((List.range (ms.foldl Nat.max m + 1 - ms.foldl Nat.min m)).map (fun k =>
        (fmtMonth (ms.foldl Nat.min m + k), monthCount rows (ms.foldl Nat.min m + k)))) := by
    unfold monthly_complaints
    rw [hok, hm]
  refine ⟨_, heq, ?_, ?_, ?_, ?_, ?_⟩
  · simp
  · intro k hk
    simp only [List.get_eq_getElem, List.getElem_map, List.getElem_range]
  · intro mi hmi
    rw [hm] at hmi
    rcases List.mem_cons.mp hmi with h | h
    · subst h
      exact ⟨foldl_min_le_self ms mi, le_foldl_max_self ms mi⟩
    · exact ⟨foldl_min_le ms m mi h, le_foldl_max ms m mi h⟩
  · rw [hm]
    exact foldl_min_mem ms m
  · rw [hm]
    exact foldl_max_mem ms m

/-- C1, witness: the amended theorem applied to the January/March table
yields three buckets (January through March). -/
theorem monthly_buckets_consecutive_span_witness :
    ∃ buckets, monthly_complaints janMarTable = Except.ok buckets ∧ buckets.length = 3 := by
  obtain ⟨b, hb, hlen, -, -, -, -⟩ :=
    monthly_buckets_consecutive_span janMarTable (12 * 2024) [12 * 2024 + 2] rfl rfl
  refine ⟨b, hb, ?_⟩
  rw [hlen]
  rfl

/-- Records whose narrative lengths are 0 and 134 characters. -/
def narrHistExample : List Record :=
  [mkRec none none none none (some ""),
   mkRec none none none none (some (String.mk (List.replicate 134 'x')))]

/-- A one-record table whose narrative is exactly 2000 characters
long. -/
def len2000Table : List Record :=
  [mkRec none none none none (some (String.mk (List.replicate 2000 'x')))]

/-- C2, counterexample: a narrative of exactly 2000 characters is
counted in bucket 14, emitted as `(1866, 2000, 1)` — a count inside a
bucket whose claimed half-open interval `[1866, 2000)` excludes 2000 —
while bucket 15, emitted as `(2000, 2133, 0)`, stays empty although the
claimed half-open semantics `[bin_start, bin_end)` (equivalently the
exact equal-width edges, since `15·4000 ≤ 30·2000 < 16·4000`) demand
that length 2000 be counted there.  The cause is that numpy bins
against the IEEE-754 `linspace` edges, and float edge 15 is
2000.0000000000002, strictly above 2000.  (Float edge 27 similarly
exceeds 3600, so a length of 3600 drops to bucket 26.) -/
theorem narrative_hist_float_edge_counterexample :
    (narrative_hist len2000Table)[14]? = some (1866, 2000, 1) ∧
    (narrative_hist len2000Table)[15]? = some (2000, 2133, 0) ∧
    15 * 4000 ≤ 30 * 2000 ∧ 30 * 2000 < 16 * 4000 ∧
    (2000 : ℚ) < binEdgesF 15 ∧ binEdgesF 14 ≤ (2000 : ℚ) ∧
    histBin 2000 = some 14 := by
  have hl : ((len2000Table.filterMap fun r => r.narrative).map String.length) =
      [2000] := by
    show [(List.replicate 2000 'x').length] = [2000]
    rw [List.length_replicate]
  have hn : narrative_hist len2000Table =
      (List.range 30).map (fun i =>
        ((i * 4000) / 30, ((i + 1) * 4000) / 30,
          (([2000] : List Nat).filter (fun L => decide (histBin L = some i))).length)) := by
    simp only [narrative_hist, hl]
  refine ⟨?_, ?_, by norm_num, by norm_num, by norm_num [binEdgesF],
    by norm_num [binEdgesF], rfl⟩
  · rw [hn]
    decide
  · rw [hn]
    decide

/-- C2, amended: the narrative histogram has exactly 30 buckets; bucket
`i` is emitted with the truncated integer edges `⌊i·4000/30⌋` and
`⌊(i+1)·4000/30⌋`; binning is half-open against the floating-point
`linspace` edges (last bucket closed at 4000), which on integer lengths
agrees with exact equal-width binning except that the lengths exactly
2000 and 3600 fall one bucket lower (buckets 14 and 26), because float
edges 15 and 27 exceed their exact values; lengths above 4000 fall in
no bucket, and no bucket index exceeds 29. -/
theorem narrative_hist_binning_amended :
    (∀ rows : List Record, (narrative_hist rows).length = 30) ∧
    (∀ rows : List Record, ∀ i, ∀ hi : i < (narrative_hist rows).length,
      (narrative_hist rows).get ⟨i, hi⟩ =
        ((i * 4000) / 30, ((i + 1) * 4000) / 30,
          (((rows.filterMap fun r => r.narrative).map String.length).filter
            (fun L => decide ((L = 2000 ∧ i = 14) ∨ (L = 3600 ∧ i = 26) ∨
              (L ≠ 2000 ∧ L ≠ 3600 ∧ i * 4000 ≤ 30 * L ∧
                (30 * L < (i + 1) * 4000 ∨ (i = 29 ∧ L = 4000)))))).length)) ∧
    (∀ L i, L ≤ 4000 → i < 30 →
      (histBin L = some i ↔
        (binEdgesF i ≤ (L : ℚ) ∧
          ((L : ℚ) < binEdgesF (i + 1) ∨ (i = 29 ∧ L = 4000))))) ∧
    (∀ L, 4000 < L → histBin L = none) ∧
    histBin 4000 = some 29 ∧
    (∀ L i, histBin L = some i → i ≤ 29) := by
  refine ⟨?_, ?_, histBin_float_edges, ?_, rfl, ?_⟩
  · intro rows
    simp [narrative_hist]
  · intro rows i hi
    have hi30 : i < 30 := by simpa [narrative_hist] using hi
    simp only [narrative_hist, List.get_eq_getElem, List.getElem_map, List.getElem_range]
    have hfil :
        ((rows.filterMap fun r => r.narrative).map String.length).filter
            (fun L => decide (histBin L = some i)) =
          ((rows.filterMap fun r => r.narrative).map String.length).filter
            (fun L => decide ((L = 2000 ∧ i = 14) ∨ (L = 3600 ∧ i = 26) ∨
              (L ≠ 2000 ∧ L ≠ 3600 ∧ i * 4000 ≤ 30 * L ∧
                (30 * L < (i + 1) * 4000 ∨ (i = 29 ∧ L = 4000))))) :=
      List.filter_congr (fun L _ => decide_eq_decide.mpr (histBin_eq_some_iff L i hi30))
    rw [hfil]
  · intro L hL
    simp [histBin, hL]
  · intro L i h
    unfold histBin at h
    split_ifs at h with h1 h2 h3 h4 <;> simp at h <;> omega

set_option maxRecDepth 40000 in
/-- C2, witness: on a table with narrative lengths 0 and 134, the first
bucket is emitted as `(0, 133, 1)` — only the empty narrative falls in
`[0, 4000/30)` — and a length of 4001 falls in no bucket. -/
theorem narrative_hist_binning_amended_witness :
    (narrative_hist narrHistExample).get ⟨0, by simp [narrative_hist]⟩ = (0, 133, 1) ∧
    histBin 4001 = none := by
  constructor
  · have h := narrative_hist_binning_amended.2.1 narrHistExample 0 (by simp [narrative_hist])
    exact h.trans (by decide)
  · exact narrative_hist_binning_amended.2.2.2.1 4001 (by decide)

/-- The four narratives of the word-count example, one of them missing. -/
def narrExample : List Record :=
  [mkRec none none none none (some "a b c"),
   mkRec none none none none (some "a b"),
   mkRec none none none none none,
   mkRec none none none none (some "a")]

/-- C3: the word-count statistics are computed only over records with a
non-missing narrative (the count equals the number of such records);
word counts split on runs of whitespace ignoring leading/trailing
whitespace; and on narratives `a b c`, `a b`, missing, `a` the result
has count 3, mean 2, sample variance 1 (hence sample standard deviation
√1 = 1), min 1, max 3, median 2, and linearly interpolated upper
percentiles 5/2, 14/5, 29/10, 149/50. -/
theorem word_count_statistics :
    (∀ rows : List Record,
      (word_count_stats rows).count = (rows.filterMap fun r => r.narrative).length) ∧
    word_count_stats narrExample =
      { count := 3, mean := some 2, sampleVar := some 1, min := some 1, max := some 3,
        p50 := some 2, p75 := some (5 / 2), p90 := some (14 / 5), p95 := some (29 / 10),
        p99 := some (149 / 50) } ∧
    (∃ v : ℚ, (word_count_stats narrExample).sampleVar = some v ∧
      Real.sqrt (v : ℝ) = 1) ∧
    wordCount "a b c" = 3 ∧
    wordCount "  a   b " = 2 := by
  have hrec : word_count_stats narrExample =
      { count := 3, mean := some 2, sampleVar := some 1, min := some 1, max := some 3,
        p50 := some 2, p75 := some (5 / 2), p90 := some (14 / 5), p95 := some (29 / 10),
        p99 := some (149 / 50) } := by
    have hw : (narrExample.filterMap (fun r => r.narrative)).map wordCount = [3, 2, 1] := by
      decide
    simp only [word_count_stats, hw]
    norm_num [meanQ, sampleVarQ, quantileLinear, sortAsc, insertAsc]
  refine ⟨?_, hrec, ⟨1, by rw [hrec], ?_⟩, by decide, by decide⟩
  · intro rows
    simp [word_count_stats]
  · rw [Rat.cast_one]
    exact Real.sqrt_one

/-- Two ordinary complaint records used as a sample file content. -/
def sampleRows : List Record :=
  [mkRec (some "P") none none (some "2024-01-05") none,
   mkRec (some "Q") none none (some "2024-02-06") (some "hello world")]

/-- A directory listing with a non-matching file before the CSV file. -/
def sampleListing : List (String × List Record) :=
  [("readme.txt", []), ("complaints.csv", sampleRows), ("other.csv", [])]

/-- C5: whenever the directory listing contains a `*.csv` file, the
loader returns the first match's rows truncated to the first 100 000 in
their original order: the result is a prefix of the file of length at
most 100 000, and the chosen file is the first match — every earlier
listing entry fails the glob. -/
theorem loader_first_match (resolvedDir : String)
    (listing : List (String × List Record)) (f : String × List Record)
    (fs : List (String × List Record))
    (h : listing.filter (fun g => matchesCsvGlob g.1) = f :: fs) :
    load_complaints_csv resolvedDir listing = .ok (f.2.take 100000) ∧
    (f.2.take 100000).length ≤ 100000 ∧
    f.2.take 100000 <+: f.2 ∧
    matchesCsvGlob f.1 = true ∧
    ∃ pre post, listing = pre ++ f :: post ∧
      ∀ g ∈ pre, matchesCsvGlob g.1 = false := by
  obtain ⟨l₁, l₂, hsplit, hpre, hf, -⟩ := List.filter_eq_cons_iff.mp h
  refine ⟨?_, ?_, List.take_prefix _ _, hf, l₁, l₂, hsplit, ?_⟩
  · simp only [load_complaints_csv]
    rw [h]
  · rw [List.length_take]
    exact Nat.min_le_left _ _
  · intro g hg
    exact Bool.eq_false_iff.mpr (hpre g hg)

/-- C5, witness: on the sample listing the loader skips `readme.txt`,
reads `complaints.csv` and returns its rows (all of them, being fewer
than 100 000). -/
theorem loader_first_match_witness :
    load_complaints_csv "data/input" sampleListing =
      Except.ok (sampleRows.take 100000) ∧
    (sampleRows.take 100000).length ≤ 100000 := by
  have h := loader_first_match "data/input" sampleListing
    ("complaints.csv", sampleRows) [("other.csv", [])] (by decide)
  exact ⟨h.1, h.2.1⟩

/-- A directory listing with no `*.csv` file at all. -/
def emptyListing : List (String × List Record) := [("notes.txt", [])]

/-- C6: whenever the directory listing contains no `*.csv` file, the
loader fails (it never returns a table) with an error message that
contains the resolved directory path and the instruction to run
`/scrape` first. -/
theorem loader_missing_dataset (resolvedDir : String)
    (listing : List (String × List Record))
    (h : listing.filter (fun g => matchesCsvGlob g.1) = []) :
    ∃ msg, load_complaints_csv resolvedDir listing = .error msg ∧
      resolvedDir.data <:+: msg.data ∧
      ("Run /scrape first").data <:+: msg.data ∧
      ∀ t, load_complaints_csv resolvedDir listing ≠ .ok t := by
  have heq : load_complaints_csv resolvedDir listing =
      .error ("No CSV files found in " ++ resolvedDir ++ ". " ++
        "Run /scrape first" ++ " to download complaints.csv.") := by
    simp only [load_complaints_csv]
    rw [h]
  refine ⟨_, heq, ?_, ?_, by simp [heq]⟩
  · exact ⟨("No CSV files found in ").data,
      (". " ++ "Run /scrape first" ++ " to download complaints.csv.").data,
      by simp [String.data_append]⟩
  · exact ⟨("No CSV files found in " ++ resolvedDir ++ ". ").data,
      (" to download complaints.csv.").data,
      by simp [String.data_append]⟩

/-- C6, witness: the loader on a listing holding only `notes.txt` fails
with a message containing the resolved path and the `/scrape`
instruction. -/
theorem loader_missing_dataset_witness :
    ∃ msg, load_complaints_csv "data/input" emptyListing = Except.error msg ∧
      ("data/input").data <:+: msg.data ∧
      ("Run /scrape first").data <:+: msg.data ∧
      ∀ t, load_complaints_csv "data/input" emptyListing ≠ Except.ok t :=
  loader_missing_dataset "data/input" emptyListing (by decide)

/-- C7: whenever some row's non-missing date value fails to parse as a
calendar date, the monthly aggregation fails with an error naming an
offending raw value (a non-missing unparseable date of some row), and
never returns buckets. -/
theorem temporal_date_parse_error (rows : List Record) (r : Record) (s : String)
    (hr : r ∈ rows) (hs : r.dateSent = some s) (hbad : parseDate s = none) :
    ∃ bad msg, firstBadDate rows = some bad ∧ parseDate bad = none ∧
      (∃ q ∈ rows, q.dateSent = some bad) ∧
      monthly_complaints rows = .error msg ∧
      bad.data <:+: msg.data ∧
      ∀ buckets, monthly_complaints rows ≠ .ok buckets := by
  obtain ⟨bad, hfb⟩ := firstBadDate_of_mem rows r s hr hs hbad
  obtain ⟨hpb, q, hq, hqs⟩ := firstBadDate_spec rows bad hfb
  have heq : monthly_complaints rows =
      .error ("Unknown datetime string format, unable to parse: " ++ bad) := by
    unfold monthly_complaints
    rw [hfb]
  refine ⟨bad, _, hfb, hpb, ⟨q, hq, hqs⟩, heq, ?_, by simp [heq]⟩
  exact ⟨("Unknown datetime string format, unable to parse: ").data, [],
    by simp [String.data_append]⟩

/-- A one-row table whose date value is not a calendar date. -/
def badDateTable : List Record :=
  [mkRec (some "X") none none (some "13/45/oops") none]

/-- C7, witness: a table holding the date value `13/45/oops` makes the
monthly aggregation fail with a message naming that value. -/
theorem temporal_date_parse_error_witness :
    ∃ bad msg, firstBadDate badDateTable = some bad ∧ parseDate bad = none ∧
      (∃ q ∈ badDateTable, q.dateSent = some bad) ∧
      monthly_complaints badDateTable = Except.error msg ∧
      bad.data <:+: msg.data ∧
      ∀ buckets, monthly_complaints badDateTable ≠ Except.ok buckets :=
  temporal_date_parse_error badDateTable
    (mkRec (some "X") none none (some "13/45/oops") none)
    "13/45/oops" (by decide) rfl (by decide)

/-- A one-row table with no narrative at all. -/
def noNarrativeTable : List Record :=
  [mkRec (some "P") (some "CA") (some "Web") (some "2024-01-05") none]

/-- A directory listing holding one CSV file with no narratives. -/
def edgeListing : List (String × List Record) := [("complaints.csv", noNarrativeTable)]

/-- C8, counterexample: on a dataset whose records all lack a narrative
the statistics engine itself is total (count 0, all statistics the
NaN-like `none`) and the EDA computation produces a response value —
but the claim's assertion that the `/eda/plots` request does not fail
is false: serializing the NaN-bearing response raises, and the request
errors out instead of returning the response. -/
theorem eda_plots_nan_serialization_counterexample :
    (word_count_stats noNarrativeTable).count = 0 ∧
    statsHasNaN (word_count_stats noNarrativeTable) = true ∧
    render_eda_plots "data/input" edgeListing =
      Except.error "Out of range float values are not JSON compliant" ∧
    (∀ resp, render_eda_plots "data/input" edgeListing ≠ Except.ok resp) := by
  refine ⟨rfl, rfl, rfl, ?_⟩
  intro resp h
  rw [(rfl : render_eda_plots "data/input" edgeListing =
    Except.error "Out of range float values are not JSON compliant")] at h
  cases h

/-- C8, amended: with fewer than two non-missing narratives the sample
standard deviation is the NaN-like `none` rather than a crash, and with
zero non-missing narratives the statistics record still exists (all
NaN-like fields) and the EDA computation itself still succeeds; the
request as a whole then fails anyway, at the JSON-serialization
boundary, because the NaN-bearing statistics are rejected by the
response renderer. -/
theorem word_count_stats_degenerate_amended (rows : List Record)
    (h : (word_count_stats rows).count < 2) :
    (word_count_stats rows).sampleVar = none ∧
    statsHasNaN (word_count_stats rows) = true ∧
    word_count_stats noNarrativeTable =
      { count := 0, mean := none, sampleVar := none, min := none, max := none,
        p50 := none, p75 := none, p90 := none, p95 := none, p99 := none } ∧
    (∃ resp, eda_plots "data/input" edgeListing = Except.ok resp ∧
      resp.word_count_stats.count = 0) ∧
    render_eda_plots "data/input" edgeListing =
      Except.error "Out of range float values are not JSON compliant" := by
  have hvar : (word_count_stats rows).sampleVar = none := by
    simp only [word_count_stats] at h ⊢
    unfold sampleVarQ
    rw [if_neg (by omega)]
  refine ⟨hvar, ?_, rfl, ?_, rfl⟩
  · simp [statsHasNaN, hvar]
  · have hE : (eda_plots "data/input" edgeListing).toOption.map
        (fun r => r.word_count_stats.count) = some 0 := rfl
    rcases hcase : eda_plots "data/input" edgeListing with m | resp
    · rw [hcase] at hE
      simp [Except.toOption] at hE
    · rw [hcase] at hE
      simp [Except.toOption] at hE
      exact ⟨resp, rfl, hE⟩

/-- C8, witness: on the narrative-free table the sample standard
deviation is `none` and the NaN flag is set. -/
theorem word_count_stats_degenerate_amended_witness :
    (word_count_stats noNarrativeTable).sampleVar = none ∧
    statsHasNaN (word_count_stats noNarrativeTable) = true :=
  ⟨(word_count_stats_degenerate_amended noNarrativeTable (by decide)).1,
   (word_count_stats_degenerate_amended noNarrativeTable (by decide)).2.1⟩

/-- C9: the `/eda/plots` computation is a pure function of the dataset
contents — for equal directory snapshots the responses are equal; no
randomness or hidden state enters the computation. -/
theorem eda_plots_deterministic (resolvedDir : String)
    (listing1 listing2 : List (String × List Record)) (h : listing1 = listing2) :
    eda_plots resolvedDir listing1 = eda_plots resolvedDir listing2 := by
  rw [h]

/-- C9, witness: two runs over the unchanged sample listing agree. -/
theorem eda_plots_deterministic_witness :
    eda_plots "data/input" sampleListing = eda_plots "data/input" sampleListing :=
  eda_plots_deterministic "data/input" sampleListing sampleListing rfl

/-- C4: the categorical aggregation counts occurrences of the
non-missing values (`[A, A, B, C, C, C]` with one missing entry yields
exactly `C:3, A:2, B:1`); prepending a missing value changes nothing;
every emitted pair holds the exact occurrence count of a value present
in the column; ties keep first-appearance order (`B` before the
equal-count, alphabetically earlier `A`); and with at least 10 distinct
non-missing values the top-10 truncation returns exactly 10 entries
forming a prefix of the descending-sorted full count list. -/
theorem categorical_value_counts :
    valueCounts [some "A", some "A", some "B", none, some "C", some "C", some "C"] =
      [("C", 3), ("A", 2), ("B", 1)] ∧
    (∀ col : List (Option String), valueCounts (none :: col) = valueCounts col) ∧
    (∀ col : List (Option String), ∀ v c, (v, c) ∈ valueCounts col →
      c = (col.filterMap id).count v ∧ v ∈ col.filterMap id) ∧
    valueCounts [some "B", some "B", some "A", some "A", some "C"] =
      [("B", 2), ("A", 2), ("C", 1)] ∧
    (∀ col : List (Option String), 10 ≤ (firstSeen (col.filterMap id)).length →
      (topStatesOf col).length = 10 ∧ topStatesOf col <+: valueCounts col ∧
      List.Sorted countGE (topStatesOf col)) := by
  refine ⟨by decide, ?_, ?_, by decide, ?_⟩
  · intro col
    rfl
  · intro col v c hmem
    have hmem' := (valueCounts_perm col).mem_iff.mp hmem
    obtain ⟨a, ha, heq⟩ := List.mem_map.mp hmem'
    cases heq
    exact ⟨rfl, (mem_firstSeen _ _).mp ha⟩
  · intro col hcol
    refine ⟨?_, List.take_prefix _ _, ?_⟩
    · unfold topStatesOf
      rw [List.length_take, valueCounts_length]
      omega
    · exact List.Pairwise.sublist (List.take_sublist _ _) (valueCounts_sorted col)

/-- A column with twelve distinct state values. -/
def manyStatesCol : List (Option String) :=
  [some "AL", some "AK", some "AZ", some "AR", some "CA", some "CO", some "CT",
   some "DE", some "FL", some "GA", some "HI", some "ID"]

/-- C4, witness: on a column with twelve distinct values, the top-10
truncation yields exactly 10 entries, a sorted prefix of the full count
list. -/
theorem categorical_value_counts_witness :
    (topStatesOf manyStatesCol).length = 10 ∧
    topStatesOf manyStatesCol <+: valueCounts manyStatesCol ∧
    List.Sorted countGE (topStatesOf manyStatesCol) :=
  categorical_value_counts.2.2.2.2 manyStatesCol (by decide)

/-- C10: with fewer than 10 distinct non-missing values the top-10
truncation is the identity — the result is the full descending-sorted
count list, holding exactly one entry per distinct non-missing value
(no padding, no error). -/
theorem top_states_few_distinct (col : List (Option String))
    (h : (firstSeen (col.filterMap id)).length < 10) :
    topStatesOf col = valueCounts col ∧
    ((valueCounts col).map Prod.fst).Perm (firstSeen (col.filterMap id)) ∧
    ((valueCounts col).map Prod.fst).Nodup ∧
    List.Sorted countGE (valueCounts col) := by
  have hperm : ((valueCounts col).map Prod.fst).Perm (firstSeen (col.filterMap id)) := by
    have hp := (valueCounts_perm col).map Prod.fst
    simpa [List.map_map, Function.comp_def, List.map_id'] using hp
  refine ⟨?_, hperm, hperm.nodup_iff.mpr (firstSeen_nodup _), valueCounts_sorted col⟩
  unfold topStatesOf
  apply List.take_of_length_le
  rw [valueCounts_length]
  omega

/-- C10, witness: a column with two distinct states passes through the
top-10 truncation untouched. -/
theorem top_states_few_distinct_witness :
    topStatesOf [some "CA", some "NY", some "CA"] =
      valueCounts [some "CA", some "NY", some "CA"] ∧
    ((valueCounts [some "CA", some "NY", some "CA"]).map Prod.fst).Perm
      (firstSeen ([some "CA", some "NY", some "CA"].filterMap id)) ∧
    ((valueCounts [some "CA", some "NY", some "CA"]).map Prod.fst).Nodup ∧
    List.Sorted countGE (valueCounts [some "CA", some "NY", some "CA"]) :=
  top_states_few_distinct [some "CA", some "NY", some "CA"] (by decide)

end CfpbEda
